import Mathlib

/-!
Verification of the credential and token lifecycle subsystem of the
tecnet-back repository (NestJS/Prisma backend).

Shallow embedding conventions:
* The Prisma `User` model (prisma/schema.prisma) becomes the `User`
  structure; `DateTime` columns are modelled as milliseconds since the
  epoch (`Nat`), matching the arithmetic `Date.now() + k` in the source.
* The database is a list of user rows; Prisma `findUnique` becomes
  `List.find?` over the row predicate, and `update` by id becomes a
  conditional `List.map` (`updateById`).  A Prisma update whose `where`
  matches no row raises error code P2025; `updateById` returns `none`
  in that case.
* NestJS exceptions become the `HttpErr` error value carried in
  `Except`; operations that mutate the store return a pair of the
  `Except` outcome and the resulting store, because some error paths
  (refresh-token signature failure) mutate before throwing.
* External cryptographic primitives (`bcrypt.compare`, `bcrypt.hash`,
  `jwtService.sign`, `refreshJwtService.verify`) and random token
  generation are passed in as explicit function or value parameters.
* JavaScript objects returned after `const (password, ...result) = user`
  destructuring are modelled as association lists of field names, so
  that presence or absence of a field in the outward value is a fact
  about the model (`userJson`, `omitPassword`).
-/

namespace TecnetAuth

/-- The persisted user row, from `model User` in prisma/schema.prisma.
Non-auth profile columns (name, lastName, address, phone, timestamps)
are collapsed into `name`; they play no role in the claims. -/
structure User where
  id : String
  email : String
  password : String
  name : String
  isActive : Bool
  activationToken : Option String
  activationTokenExpires : Option Nat
  resetToken : Option String
  resetTokenExpiry : Option Nat
  refreshToken : Option String
  refreshTokenExpires : Option Nat
  roleId : String
  deriving Repr, DecidableEq

/-- The NestJS exception classes thrown by the auth/users services. -/
inductive ExKind
  | unauthorized
  | notFound
  | forbidden
  | conflict
  | internal
  | badRequest
  deriving Repr, DecidableEq

/-- An HTTP-layer error: exception class plus message string. -/
structure HttpErr where
  kind : ExKind
  message : String
  deriving Repr, DecidableEq

/-- A JSON field value in an outward-serialized user object. -/
inductive FieldVal
  | s (v : String)
  | os (v : Option String)
  | onat (v : Option Nat)
  | b (v : Bool)
  deriving Repr, DecidableEq

/-- Serialization of a full user row, as produced when a service method
returns the Prisma object unchanged: every column is present. -/
def userJson (u : User) : List (String × FieldVal) :=
  [ ("id", FieldVal.s u.id)
  , ("email", FieldVal.s u.email)
  , ("password", FieldVal.s u.password)
  , ("name", FieldVal.s u.name)
  , ("isActive", FieldVal.b u.isActive)
  , ("activationToken", FieldVal.os u.activationToken)
  , ("activationTokenExpires", FieldVal.onat u.activationTokenExpires)
  , ("resetToken", FieldVal.os u.resetToken)
  , ("resetTokenExpiry", FieldVal.onat u.resetTokenExpiry)
  , ("refreshToken", FieldVal.os u.refreshToken)
  , ("refreshTokenExpires", FieldVal.onat u.refreshTokenExpires)
  , ("roleId", FieldVal.s u.roleId)
  ]

/-- The object built by `const (password, ...result) = user`: every
column except `password`. -/
def omitPassword (u : User) : List (String × FieldVal) :=
  (userJson u).filter (fun kv => kv.fst ≠ "password")

/-- Prisma `update (where: id)`: rewrites the matching rows and returns
the rewritten row, or `none` (error P2025) when no row has the id. -/
def updateById (db : List User) (i : String) (f : User → User) :
    Option (List User × User) :=
  match db.find? (fun u => u.id == i) with
  | none => none
  | some u => some (db.map (fun v => if v.id == i then f v else v), f u)

/-- Prisma filter `field: (gt: new Date())` on a nullable DateTime:
a null column never satisfies `gt`. -/
def gtNow (e : Option Nat) (now : Nat) : Bool :=
  match e with
  | some t => now < t
  | none => false

/-- `7 * 24 * 60 * 60 * 1000` from auth.service.ts. -/
def sevenDaysMs : Nat := 7 * 24 * 60 * 60 * 1000

/-- `24 * 60 * 60 * 1000` from users.service.ts. -/
def twentyFourHoursMs : Nat := 24 * 60 * 60 * 1000

/-- `1 * 60 * 60 * 1000` from users.service.ts. -/
def oneHourMs : Nat := 60 * 60 * 1000

/-! ### src/utils/auth-utils.ts -/

/-- A character accepted by the Node hex decoder. -/
def isHexDigit (c : Char) : Bool :=
  (48 ≤ c.toNat && c.toNat ≤ 57) ||
  (97 ≤ c.toNat && c.toNat ≤ 102) ||
  (65 ≤ c.toNat && c.toNat ≤ 70)

/-- Numeric value of a hex digit character. -/
def hexVal (c : Char) : Nat :=
  if c.toNat ≤ 57 then c.toNat - 48
  else if 97 ≤ c.toNat then c.toNat - 87
  else c.toNat - 55

/-- Pairwise hex decoding: Node `Buffer.from(s, "hex")` consumes two
hex digits per byte and stops (truncating) at the first invalid or
incomplete pair. -/
def hexDecodeList : List Char → List Nat
  | c1 :: c2 :: rest =>
    if isHexDigit c1 && isHexDigit c2 then
      (16 * hexVal c1 + hexVal c2) :: hexDecodeList rest
    else []
  | _ => []

/-- `Buffer.from(s, "hex")` as a byte list. -/
def bufferFromHex (s : String) : List Nat :=
  hexDecodeList s.data

/-- Node `crypto.timingSafeEqual`: throws when the two buffers differ
in byte length, otherwise reports byte-wise equality. -/
def timingSafeEqual (a b : List Nat) : Except String Bool :=
  if a.length = b.length then Except.ok (a == b)
  else Except.error "Input buffers must have the same byte length"

/-- `verifyActivationToken` from src/utils/auth-utils.ts: hex-decodes
both strings and delegates to `timingSafeEqual`. -/
def verifyActivationToken (storedToken providedToken : String) :
    Except String Bool :=
  timingSafeEqual (bufferFromHex storedToken) (bufferFromHex providedToken)

/-! ### src/auth/auth.service.ts -/

/-- Return value of login/refresh. -/
structure LoginResponse where
  access_token : String
  refresh_token : String
  deriving Repr, DecidableEq

/-- `AuthService.validateUser`: looks the user up by email; an inactive
user is rejected with ForbiddenException (Account Inactive) before the
password is compared; otherwise bcrypt comparison decides between the
password-stripped user object and `null`. `bcryptCompare pass hash`
stands for `bcrypt.compare(pass, hash)`. -/
def validateUser (db : List User) (bcryptCompare : String → String → Bool)
    (email pass : String) :
    Except HttpErr (Option (List (String × FieldVal))) :=
  match db.find? (fun u => u.email == email) with
  | some u =>
    if u.isActive = false then
      Except.error ⟨ExKind.forbidden, "Account Inactive"⟩
    else if bcryptCompare pass u.password then
      Except.ok (some (omitPassword u))
    else Except.ok none
  | none => Except.ok none

/-- `AuthService.login`: signs an access and a refresh token over the
payload (sub, email), stores the refresh token and its expiry
`now + 7 days` on the user row, and returns both tokens; a failing
store update surfaces as InternalServerErrorException.  `signAccess`
and `signRefresh` stand for the two injected JwtService sign calls. -/
def login (db : List User) (signAccess signRefresh : String → String → String)
    (userId userEmail : String) (now : Nat) :
    Except HttpErr LoginResponse × List User :=
  let accessToken := signAccess userId userEmail
  let refreshTok := signRefresh userId userEmail
  match updateById db userId (fun u =>
      { u with refreshToken := some refreshTok,
               refreshTokenExpires := some (now + sevenDaysMs) }) with
  | some (db2, _) => (Except.ok ⟨accessToken, refreshTok⟩, db2)
  | none =>
    (Except.error ⟨ExKind.internal, "Failed to complete login process."⟩, db)

/-- `AuthService.logout`: nulls both refresh fields; when the row does
not exist (Prisma P2025) the catch block still returns the success
message with the store unchanged. -/
def logout (db : List User) (userId : String) : String × List User :=
  match updateById db userId (fun u =>
      { u with refreshToken := none, refreshTokenExpires := none }) with
  | some (db2, _) => ("Logout successful", db2)
  | none => ("Logout successful", db)

/-- `AuthService.refreshToken`: finds the row whose stored refreshToken
equals the presented one with `refreshTokenExpires: (gt: new Date())`;
a miss is UnauthorizedException.  Then the refresh JWT signature is
verified: on failure both refresh fields are nulled and
UnauthorizedException is thrown; on success a fresh pair is signed and
stored with expiry `now + 7 days`.  `verifyRefresh` stands for
`refreshJwtService.verify`. -/
def refreshToken (db : List User) (verifyRefresh : String → Bool)
    (signAccess signRefresh : String → String → String)
    (token : String) (now : Nat) :
    Except HttpErr LoginResponse × List User :=
  match db.find? (fun u =>
      u.refreshToken == some token && gtNow u.refreshTokenExpires now) with
  | none =>
    (Except.error ⟨ExKind.unauthorized, "Invalid or expired refresh token"⟩, db)
  | some dbUser =>
    if verifyRefresh token then
      let newAccessToken := signAccess dbUser.id dbUser.email
      let newRefreshToken := signRefresh dbUser.id dbUser.email
      match updateById db dbUser.id (fun u =>
          { u with refreshToken := some newRefreshToken,
                   refreshTokenExpires := some (now + sevenDaysMs) }) with
      | some (db2, _) => (Except.ok ⟨newAccessToken, newRefreshToken⟩, db2)
      | none => (Except.error ⟨ExKind.internal, "Could not update user."⟩, db)
    else
      match updateById db dbUser.id (fun u =>
          { u with refreshToken := none, refreshTokenExpires := none }) with
      | some (db2, _) =>
        (Except.error ⟨ExKind.unauthorized, "Invalid refresh token"⟩, db2)
      | none =>
        (Except.error ⟨ExKind.unauthorized, "Invalid refresh token"⟩, db)

/-- `AuthService.getProfile`: looks the user up by email and, when
found, returns the Prisma object as-is — the runtime value keeps every
column, password and token fields included, despite the `UserProfile`
TypeScript annotation. -/
def getProfile (db : List User) (email : String) :
    Except HttpErr (List (String × FieldVal)) :=
  match db.find? (fun u => u.email == email) with
  | none => Except.error ⟨ExKind.notFound, "User no encontrado"⟩
  | some userFound => Except.ok (userJson userFound)

/-! ### src/users/users.service.ts -/

/-- `UsersService.findByActivationToken`: an empty token short-circuits
to null (JS falsiness), otherwise `findUnique (where: activationToken)`. -/
def findByActivationToken (db : List User) (token : String) : Option User :=
  if token = "" then none
  else db.find? (fun u => u.activationToken == some token)

/-- The read phase of `UsersService.activateUser`: the single store read
(find by activation token) together with the pure expiry check made on
the fetched snapshot.  A missing row is Unauthorized (invalid token);
a null or strictly-past expiry is Unauthorized (expired token). -/
def activateReadPhase (db : List User) (token : String) (now : Nat) :
    Except HttpErr User :=
  match findByActivationToken db token with
  | none => Except.error ⟨ExKind.unauthorized, "Invalid activation token."⟩
  | some user =>
    match user.activationTokenExpires with
    | none =>
      Except.error ⟨ExKind.unauthorized, "Activation token has expired."⟩
    | some exp =>
      if exp < now then
        Except.error ⟨ExKind.unauthorized, "Activation token has expired."⟩
      else Except.ok user

/-- The write phase of `UsersService.activateUser`: one Prisma update
keyed by id only — it does not re-check the token — setting
`isActive := true` and nulling both activation fields. -/
def activateWritePhase (db : List User) (i : String) :
    Option (List User × User) :=
  updateById db i (fun u =>
    { u with isActive := true,
             activationToken := none,
             activationTokenExpires := none })

/-- `UsersService.activateUser`: the read phase followed by the write
phase; the outward value is the updated row without its password. -/
def activateUser (db : List User) (token : String) (now : Nat) :
    Except HttpErr (List (String × FieldVal)) × List User :=
  match activateReadPhase db token now with
  | Except.error e => (Except.error e, db)
  | Except.ok user =>
    match activateWritePhase db user.id with
    | some (db2, updated) => (Except.ok (omitPassword updated), db2)
    | none => (Except.error ⟨ExKind.internal, "Could not update user."⟩, db)

/-- `UsersService.findByResetToken`: empty token, unknown token, and
null-or-past expiry each raise NotFoundException, with three distinct
messages; on success the fetched row is returned. -/
def findByResetToken (db : List User) (resetToken : String) (now : Nat) :
    Except HttpErr User :=
  if resetToken = "" then
    Except.error ⟨ExKind.notFound, "Reset token is required."⟩
  else
    match db.find? (fun u => u.resetToken == some resetToken) with
    | none => Except.error ⟨ExKind.notFound, "Invalid reset token."⟩
    | some user =>
      match user.resetTokenExpiry with
      | none => Except.error ⟨ExKind.notFound, "Reset token has expired."⟩
      | some exp =>
        if exp < now then
          Except.error ⟨ExKind.notFound, "Reset token has expired."⟩
        else Except.ok user

/-- `UsersService.updatePassword`: validates the reset token through
`findByResetToken`, then one Prisma update keyed by id sets the bcrypt
hash of the new password and nulls both reset fields.  `hashFn` stands
for `bcrypt.hash` at cost 10 (`hashPassword`). -/
def updatePassword (db : List User) (hashFn : String → String)
    (resetToken newPassword : String) (now : Nat) :
    Except HttpErr (List (String × FieldVal)) × List User :=
  match findByResetToken db resetToken now with
  | Except.error e => (Except.error e, db)
  | Except.ok user =>
    let hashedPassword := hashFn newPassword
    match updateById db user.id (fun u =>
        { u with password := hashedPassword,
                 resetToken := none,
                 resetTokenExpiry := none }) with
    | some (db2, updated) => (Except.ok (omitPassword updated), db2)
    | none =>
      (Except.error ⟨ExKind.internal, "Could not update password."⟩, db)

/-- `UsersService.resetPassword`: looks the user up by email and —
despite the comment directly above the throw stating that the service
must silently succeed to prevent email enumeration — raises
NotFoundException on a miss.  On a hit it stores the generated token
with expiry `now + 1 hour` and returns the row without its password
(the reset email is fire-and-forget and does not affect the outcome).
`genToken` stands for the value produced by
`generateResetPasswordToken()`. -/
def resetPassword (db : List User) (genToken : String) (email : String)
    (now : Nat) :
    Except HttpErr (List (String × FieldVal)) × List User :=
  match db.find? (fun u => u.email == email) with
  | none => (Except.error ⟨ExKind.notFound, "User not found"⟩, db)
  | some user =>
    match updateById db user.id (fun u =>
        { u with resetToken := some genToken,
                 resetTokenExpiry := some (now + oneHourMs) }) with
    | some (db2, updated) => (Except.ok (omitPassword updated), db2)
    | none =>
      (Except.error ⟨ExKind.internal, "Failed to process password reset"⟩, db)

/-- `UsersService.create`: hashes the password, seeds the activation
token with expiry `now + 24 hours`, inserts the row with
`isActive := false`; a duplicate email is the Prisma P2002 unique
violation mapped to ConflictException. -/
def create (db : List User) (hashFn : String → String)
    (genActivationToken : String) (newId email name roleId pass : String)
    (now : Nat) :
    Except HttpErr (List (String × FieldVal)) × List User :=
  if db.any (fun u => u.email == email) then
    (Except.error ⟨ExKind.conflict, "User with this email already exists."⟩, db)
  else
    let newUser : User :=
      { id := newId, email := email, password := hashFn pass, name := name,
        isActive := false,
        activationToken := some genActivationToken,
        activationTokenExpires := some (now + twentyFourHoursMs),
        resetToken := none, resetTokenExpiry := none,
        refreshToken := none, refreshTokenExpires := none,
        roleId := roleId }
    (Except.ok (omitPassword newUser), db ++ [newUser])

/-- `UsersService.findByEmailAndSendEmailActivation` (re-issue of the
activation token): finds the user by email and overwrites both
activation fields with a fresh token and expiry `now + 24 hours`. -/
def findByEmailAndSendEmailActivation (db : List User)
    (genActivationToken : String) (email : String) (now : Nat) :
    Except HttpErr (List (String × FieldVal)) × List User :=
  if email = "" then
    (Except.error ⟨ExKind.notFound, "Email is required."⟩, db)
  else
    match db.find? (fun u => u.email == email) with
    | none => (Except.error ⟨ExKind.notFound, "Invalid email."⟩, db)
    | some user =>
      match updateById db user.id (fun u =>
          { u with activationToken := some genActivationToken,
                   activationTokenExpires := some (now + twentyFourHoursMs) }) with
      | some (db2, updated) => (Except.ok (omitPassword updated), db2)
      | none => (Except.error ⟨ExKind.internal, "Could not update user."⟩, db)

/-! ### Invariant and concrete fixtures -/

/-- Whether an operation outcome is a success (2xx) rather than a
thrown exception. -/
def isOkE {α : Type} (x : Except HttpErr α) : Bool :=
  match x with
  | Except.ok _ => true
  | Except.error _ => false

/-- For each of the three token classes, the token column is null
exactly when its paired expiry column is null. -/
def tokenPairInv (u : User) : Prop :=
  (u.activationToken = none ↔ u.activationTokenExpires = none) ∧
  (u.resetToken = none ↔ u.resetTokenExpiry = none) ∧
  (u.refreshToken = none ↔ u.refreshTokenExpires = none)

/-- The pairing invariant, row by row over the store. -/
def dbInv (db : List User) : Prop :=
  ∀ u ∈ db, tokenPairInv u

/-- An active account holding one token of each class. -/
def demoUser : User :=
  { id := "u1", email := "ana@example.com", password := "hash1",
    name := "Ana", isActive := true,
    activationToken := some "act1", activationTokenExpires := some 1000,
    resetToken := some "rst1", resetTokenExpiry := some 1000,
    refreshToken := some "rfh1", refreshTokenExpires := some 1000,
    roleId := "r1" }

/-- An inactive account (pending activation). -/
def inactiveUser : User :=
  { id := "u2", email := "ina@example.com", password := "hash2",
    name := "Ina", isActive := false,
    activationToken := some "act2", activationTokenExpires := some 1000,
    resetToken := none, resetTokenExpiry := none,
    refreshToken := none, refreshTokenExpires := none,
    roleId := "r1" }

/-- An inactive account with a pending activation token, used for the
concurrent-consumption schedules. -/
def raceUser : User :=
  { id := "u9", email := "race@example.com", password := "hash9",
    name := "Rae", isActive := false,
    activationToken := some "tok9", activationTokenExpires := some 1000,
    resetToken := none, resetTokenExpiry := none,
    refreshToken := none, refreshTokenExpires := none,
    roleId := "r1" }

/-- `raceUser` after a successful activation write. -/
def raceUserActivated : User :=
  { raceUser with isActive := true,
                  activationToken := none,
                  activationTokenExpires := none }

/-- `demoUser` after a successful reset consumption (password rehashed,
both reset columns null). -/
def demoUserPwReset : User :=
  { demoUser with password := "Np2+h",
                  resetToken := none,
                  resetTokenExpiry := none }

/-- `demoUser` after a successful refresh rotation under the signing
stub that returns the payload email. -/
def demoUserRotated : User :=
  { demoUser with refreshToken := some "ana@example.com",
                  refreshTokenExpires := some sevenDaysMs }

/-- An account whose activation token expires exactly at instant 500. -/
def boundaryUser : User :=
  { id := "u5", email := "bdy@example.com", password := "hash5",
    name := "Bdy", isActive := false,
    activationToken := some "act5", activationTokenExpires := some 500,
    resetToken := some "rst5", resetTokenExpiry := some 500,
    refreshToken := some "rfh5", refreshTokenExpires := some 500,
    roleId := "r1" }

/-! ## Theorems -/

/-- C2: `resetPassword` on an email with no matching account raises
NotFoundException with message User not found — it does not return
success, contradicting both the claim and the enumeration-defense
comment directly above the throw in the source. -/
theorem resetPassword_miss_throws_notFound :
    resetPassword [demoUser] "tok2" "ghost@example.com" 0 =
      (Except.error ⟨ExKind.notFound, "User not found"⟩, [demoUser]) := by
  rfl

/-- C3: `getProfile` on an existing account returns the full row: the
outward value contains the password hash and all three token fields,
although the TypeScript annotation and the doc comment promise they
are excluded. -/
theorem getProfile_exposes_password_and_tokens :
    getProfile [demoUser] "ana@example.com" = Except.ok (userJson demoUser) ∧
    (userJson demoUser).lookup "password" = some (FieldVal.s "hash1") ∧
    (userJson demoUser).lookup "refreshToken" =
      some (FieldVal.os (some "rfh1")) ∧
    (userJson demoUser).lookup "resetToken" =
      some (FieldVal.os (some "rst1")) ∧
    (userJson demoUser).lookup "activationToken" =
      some (FieldVal.os (some "act1")) := by
  exact ⟨rfl, rfl, rfl, rfl, rfl⟩

/-- C4 counterexample: on inputs of differing byte length
`verifyActivationToken` propagates the `timingSafeEqual` length error
(Node throws here) instead of returning false. -/
theorem verifyActivationToken_throws_on_length_mismatch :
    verifyActivationToken "aa" "aabb" =
      Except.error "Input buffers must have the same byte length" := by
  rfl

/-- C4 amended: for inputs whose decoded byte lengths differ,
`verifyActivationToken` throws the length error rather than returning
false; for equal decoded lengths it returns byte-wise equality. -/
theorem verifyActivationToken_length_behavior (a b : String) :
    ((bufferFromHex a).length ≠ (bufferFromHex b).length →
      verifyActivationToken a b =
        Except.error "Input buffers must have the same byte length") ∧
    ((bufferFromHex a).length = (bufferFromHex b).length →
      verifyActivationToken a b =
        Except.ok (bufferFromHex a == bufferFromHex b)) := by
  constructor
  · intro h
    simp [verifyActivationToken, timingSafeEqual, h]
  · intro h
    simp [verifyActivationToken, timingSafeEqual, h]

/-- Witness for the amended C4 theorem at concrete inputs. -/
theorem verifyActivationToken_length_behavior_witness :
    verifyActivationToken "ab" "cd" =
      Except.ok (bufferFromHex "ab" == bufferFromHex "cd") ∧
    verifyActivationToken "cc" "ccdd" =
      Except.error "Input buffers must have the same byte length" :=
  ⟨(verifyActivationToken_length_behavior "ab" "cd").2 (by decide),
   (verifyActivationToken_length_behavior "cc" "ccdd").1 (by decide)⟩

/-- C5 counterexample: an activation token whose stored expiry equals
the current instant is accepted by `activateUser` — the activation and
reset expiry checks use a strict less-than on the stored value, so the
boundary is not exclusive for these token classes. -/
theorem activateUser_accepts_boundary_expiry :
    activateUser [boundaryUser] "act5" 500 =
      (Except.ok (omitPassword { boundaryUser with
          isActive := true,
          activationToken := none,
          activationTokenExpires := none }),
       [{ boundaryUser with
          isActive := true,
          activationToken := none,
          activationTokenExpires := none }]) := by
  rfl

/-- C5 amended: the refresh lookup uses `gt`, so a refresh token whose
expiry is at or before now always fails (exclusive boundary); the
activation and reset checks use a strict less-than on the stored
expiry, so a token expiring exactly now is still accepted there, while
a strictly-past (or null) expiry always fails for all three classes. -/
theorem expiry_boundary_behavior :
    (∀ (db : List User) (vR : String → Bool)
        (sA sR : String → String → String) (t : String) (now : Nat),
      (∀ u ∈ db, u.refreshToken = some t →
        ∃ e, u.refreshTokenExpires = some e ∧ e ≤ now) →
      refreshToken db vR sA sR t now =
        (Except.error
          ⟨ExKind.unauthorized, "Invalid or expired refresh token"⟩, db)) ∧
    (∀ (db : List User) (t : String) (now : Nat) (u : User),
      findByActivationToken db t = some u →
      u.activationTokenExpires = some now →
      isOkE (activateUser db t now).1 = true) ∧
    (∀ (db : List User) (t : String) (now : Nat) (u : User),
      t ≠ "" →
      db.find? (fun v => v.resetToken == some t) = some u →
      u.resetTokenExpiry = some now →
      findByResetToken db t now = Except.ok u) ∧
    (∀ (db : List User) (t : String) (now e : Nat) (u : User),
      findByActivationToken db t = some u →
      u.activationTokenExpires = some e → e < now →
      activateUser db t now =
        (Except.error
          ⟨ExKind.unauthorized, "Activation token has expired."⟩, db)) ∧
    (∀ (db : List User) (t : String) (now e : Nat) (u : User),
      t ≠ "" →
      db.find? (fun v => v.resetToken == some t) = some u →
      u.resetTokenExpiry = some e → e < now →
      findByResetToken db t now =
        Except.error ⟨ExKind.notFound, "Reset token has expired."⟩) := by
  refine ⟨?_, ?_, ?_, ?_, ?_⟩
  · intro db vR sA sR t now h
    have hnone : db.find? (fun u =>
        u.refreshToken == some t && gtNow u.refreshTokenExpires now) = none := by
      rw [List.find?_eq_none]
      intro u hu
      simp only [Bool.and_eq_true, beq_iff_eq, not_and]
      intro hru
      obtain ⟨e, he, hle⟩ := h u hu hru
      simp [gtNow, he, Nat.not_lt.mpr hle]
    simp [refreshToken, hnone]
  · intro db t now u hfind hexp
    have hmem : u ∈ db := by
      unfold findByActivationToken at hfind
      by_cases ht : t = ""
      · simp [ht] at hfind
      · simp only [ht, if_false] at hfind
        exact List.mem_of_find?_eq_some hfind
    have hread : activateReadPhase db t now = Except.ok u := by
      simp [activateReadPhase, hfind, hexp]
    cases hw : db.find? (fun v => v.id == u.id) with
    | none =>
      rw [List.find?_eq_none] at hw
      exact absurd (by simp) (hw u hmem)
    | some w =>
      simp [activateUser, hread, activateWritePhase, updateById, hw, isOkE]
  · intro db t now u ht hfind hexp
    simp [findByResetToken, ht, hfind, hexp]
  · intro db t now e u hfind hexp hlt
    simp [activateUser, activateReadPhase, hfind, hexp, hlt]
  · intro db t now e u ht hfind hexp hlt
    simp [findByResetToken, ht, hfind, hexp, hlt]

/-- Witness for the amended C5 theorem: a refresh token expiring
exactly now is rejected, and a reset token expiring exactly now is
accepted. -/
theorem expiry_boundary_behavior_witness :
    refreshToken [boundaryUser] (fun _ => true) (fun a _ => a) (fun a _ => a)
        "rfh5" 500 =
      (Except.error
        ⟨ExKind.unauthorized, "Invalid or expired refresh token"⟩,
       [boundaryUser]) ∧
    findByResetToken [boundaryUser] "rst5" 500 = Except.ok boundaryUser :=
  ⟨expiry_boundary_behavior.1 [boundaryUser] (fun _ => true)
    (fun a _ => a) (fun a _ => a) "rfh5" 500
    (by
      intro u hu hr
      simp only [List.mem_singleton] at hu
      subst hu
      exact ⟨500, rfl, Nat.le_refl 500⟩),
   expiry_boundary_behavior.2.2.1 [boundaryUser] "rst5" 500 boundaryUser
    (by decide) (by rfl) rfl⟩

/-- C6: when the presented refresh token matches a stored, unexpired
row but the JWT signature verification fails, `refreshToken` nulls the
refreshToken and refreshTokenExpires columns of that account and
throws UnauthorizedException Invalid refresh token. -/
theorem refreshToken_clears_on_signature_failure
    (db : List User) (vR : String → Bool) (sA sR : String → String → String)
    (t : String) (now : Nat) (u : User)
    (hfind : db.find? (fun v =>
      v.refreshToken == some t && gtNow v.refreshTokenExpires now) = some u)
    (hver : vR t = false) :
    (refreshToken db vR sA sR t now).1 =
      Except.error ⟨ExKind.unauthorized, "Invalid refresh token"⟩ ∧
    ∀ w ∈ (refreshToken db vR sA sR t now).2, w.id = u.id →
      w.refreshToken = none ∧ w.refreshTokenExpires = none := by
  have hmem : u ∈ db := List.mem_of_find?_eq_some hfind
  have hfid : (db.find? (fun v => v.id == u.id)).isSome := by
    rw [List.find?_isSome]
    exact ⟨u, hmem, by simp⟩
  obtain ⟨w0, hw0⟩ := Option.isSome_iff_exists.mp hfid
  constructor
  · simp [refreshToken, hfind, hver, updateById, hw0]
  · intro w hw hid
    simp only [refreshToken, hfind, hver, updateById, hw0,
      Bool.false_eq_true, if_false] at hw
    rcases List.mem_map.mp hw with ⟨v, hv, rfl⟩
    by_cases hvi : (v.id == u.id) = true
    · simp [hvi]
    · simp only [hvi, if_false] at hid ⊢
      exact absurd hid (by simpa using hvi)

/-- Witness for C6 at a concrete store and an always-failing verifier. -/
theorem refreshToken_clears_on_signature_failure_witness :
    (refreshToken [demoUser] (fun _ => false) (fun a _ => a) (fun a _ => a)
        "rfh1" 0).1 =
      Except.error ⟨ExKind.unauthorized, "Invalid refresh token"⟩ :=
  (refreshToken_clears_on_signature_failure [demoUser] (fun _ => false)
    (fun a _ => a) (fun a _ => a) "rfh1" 0 demoUser (by rfl) rfl).1

/-- A successful `findByResetToken` outcome comes from the token
lookup: the returned row is the one whose resetToken column matches. -/
theorem findByResetToken_ok_find (db : List User) (t : String) (now : Nat)
    (u : User) (h : findByResetToken db t now = Except.ok u) :
    db.find? (fun v => v.resetToken == some t) = some u := by
  unfold findByResetToken at h
  by_cases ht : t = ""
  · simp [ht] at h
  · simp only [ht, if_false] at h
    cases hf : db.find? (fun v => v.resetToken == some t) with
    | none => rw [hf] at h; simp at h
    | some w =>
      rw [hf] at h
      cases hexp : w.resetTokenExpiry with
      | none => simp [hexp] at h
      | some e =>
        simp only [hexp] at h
        by_cases hlt : e < now
        · simp [hlt] at h
        · simp only [hlt, if_false] at h
          cases h
          rfl

/-- C7 counterexample: `updatePassword` with a token matching no
account raises NotFoundException — not the Unauthorized kind the claim
requires. -/
theorem updatePassword_unknown_token_notFound :
    updatePassword [demoUser] (fun s => String.append s "+h")
        "nope" "NewPass1" 0 =
      (Except.error ⟨ExKind.notFound, "Invalid reset token."⟩, [demoUser]) ∧
    ExKind.notFound ≠ ExKind.unauthorized := by
  exact ⟨rfl, by decide⟩

/-- C7 amended: `updatePassword` fails with the NotFound kind when the
token matches no account or is expired, and the two failures carry
distinct messages (Invalid reset token. versus Reset token has
expired.), so the caller can tell them apart; on success it persists
the hash of the new password and nulls both reset columns in one
update. -/
theorem updatePassword_failure_kinds_and_atomic_success :
    (∀ (db : List User) (hashFn : String → String) (t p : String) (now : Nat),
      t ≠ "" → (∀ u ∈ db, u.resetToken ≠ some t) →
      updatePassword db hashFn t p now =
        (Except.error ⟨ExKind.notFound, "Invalid reset token."⟩, db)) ∧
    (∀ (db : List User) (hashFn : String → String) (t p : String)
        (now e : Nat) (u : User),
      t ≠ "" → db.find? (fun v => v.resetToken == some t) = some u →
      u.resetTokenExpiry = some e → e < now →
      updatePassword db hashFn t p now =
        (Except.error ⟨ExKind.notFound, "Reset token has expired."⟩, db)) ∧
    (∀ (db : List User) (hashFn : String → String) (t p : String)
        (now : Nat) (u : User),
      findByResetToken db t now = Except.ok u →
      isOkE (updatePassword db hashFn t p now).1 = true ∧
      ∀ w ∈ (updatePassword db hashFn t p now).2, w.id = u.id →
        w.password = hashFn p ∧ w.resetToken = none ∧
        w.resetTokenExpiry = none) := by
  refine ⟨?_, ?_, ?_⟩
  · intro db hashFn t p now ht hnone
    have hf : db.find? (fun v => v.resetToken == some t) = none := by
      rw [List.find?_eq_none]
      intro v hv
      simpa using hnone v hv
    simp [updatePassword, findByResetToken, ht, hf]
  · intro db hashFn t p now e u ht hfind hexp hlt
    simp [updatePassword, findByResetToken, ht, hfind, hexp, hlt]
  · intro db hashFn t p now u hok
    have hfind := findByResetToken_ok_find db t now u hok
    have hmem : u ∈ db := List.mem_of_find?_eq_some hfind
    have hfid : (db.find? (fun v => v.id == u.id)).isSome := by
      rw [List.find?_isSome]
      exact ⟨u, hmem, by simp⟩
    obtain ⟨w0, hw0⟩ := Option.isSome_iff_exists.mp hfid
    constructor
    · simp [updatePassword, hok, updateById, hw0, isOkE]
    · intro w hw hid
      simp only [updatePassword, hok, updateById, hw0] at hw
      rcases List.mem_map.mp hw with ⟨v, hv, rfl⟩
      by_cases hvi : (v.id == u.id) = true
      · simp [hvi]
      · simp only [hvi, if_false] at hid ⊢
        exact absurd hid (by simpa using hvi)

/-- Witness for the amended C7 theorem: unknown token at a concrete
store, and a successful consumption clearing the reset columns. -/
theorem updatePassword_failure_kinds_witness :
    updatePassword [demoUser] (fun s => String.append s "+h") "zz" "Np1" 0 =
      (Except.error ⟨ExKind.notFound, "Invalid reset token."⟩, [demoUser]) ∧
    isOkE (updatePassword [demoUser] (fun s => String.append s "+h")
        "rst1" "Np1" 0).1 = true :=
  ⟨updatePassword_failure_kinds_and_atomic_success.1 [demoUser]
    (fun s => String.append s "+h") "zz" "Np1" 0 (by decide) (by decide),
   (updatePassword_failure_kinds_and_atomic_success.2.2 [demoUser]
    (fun s => String.append s "+h") "rst1" "Np1" 0 demoUser (by rfl)).1⟩

/-- C8 counterexample: an inactive account is rejected with the
Account Inactive kind even though the password comparison fails here
on every input — the inactive check runs before the credential check,
so AccountInactive is not reserved for valid credentials. -/
theorem validateUser_inactive_wrong_password_forbidden :
    validateUser [inactiveUser] (fun _ _ => false) "ina@example.com" "wrong" =
      Except.error ⟨ExKind.forbidden, "Account Inactive"⟩ := by
  rfl

/-- C8 amended: `validateUser` raises the Account Inactive rejection
for any account with isActive false regardless of the presented
password; for active accounts a matching password yields the
password-stripped row and a mismatch yields null (which the local
strategy turns into Unauthorized), so an inactive account is never
issued a session. -/
theorem validateUser_inactive_precedes_password_check
    (db : List User) (cmp : String → String → Bool)
    (email pass : String) (u : User)
    (hfind : db.find? (fun v => v.email == email) = some u) :
    (u.isActive = false →
      validateUser db cmp email pass =
        Except.error ⟨ExKind.forbidden, "Account Inactive"⟩) ∧
    (u.isActive = true → cmp pass u.password = true →
      validateUser db cmp email pass = Except.ok (some (omitPassword u))) ∧
    (u.isActive = true → cmp pass u.password = false →
      validateUser db cmp email pass = Except.ok none) := by
  refine ⟨?_, ?_, ?_⟩
  · intro hin
    simp [validateUser, hfind, hin]
  · intro hact hcmp
    simp [validateUser, hfind, hact, hcmp]
  · intro hact hcmp
    simp [validateUser, hfind, hact, hcmp]

/-- Witness for the amended C8 theorem at a concrete store: inactive
account with failing comparison, and active account with succeeding
comparison. -/
theorem validateUser_inactive_precedes_password_check_witness :
    validateUser [inactiveUser] (fun _ _ => false) "ina@example.com" "x" =
      Except.error ⟨ExKind.forbidden, "Account Inactive"⟩ ∧
    validateUser [demoUser] (fun _ _ => true) "ana@example.com" "x" =
      Except.ok (some (omitPassword demoUser)) :=
  ⟨(validateUser_inactive_precedes_password_check [inactiveUser]
      (fun _ _ => false) "ina@example.com" "x" inactiveUser (by rfl)).1 rfl,
   (validateUser_inactive_precedes_password_check [demoUser]
      (fun _ _ => true) "ana@example.com" "x" demoUser (by rfl)).2.1 rfl rfl⟩

/-- Re-running an id-preserving, idempotent row update on its own
result finds the same row again and leaves the store unchanged. -/
theorem updateById_map_self (db : List User) (i : String) (f : User → User)
    (hid : ∀ u, (f u).id = u.id) (hff : ∀ u, f (f u) = f u)
    (db2 : List User) (u2 : User)
    (h : updateById db i f = some (db2, u2)) :
    updateById db2 i f = some (db2, f u2) := by
  unfold updateById at h ⊢
  cases hf : db.find? (fun u => u.id == i) with
  | none =>
    rw [hf] at h
    exact absurd h (by simp)
  | some u =>
    rw [hf] at h
    simp only [Option.some.injEq, Prod.mk.injEq] at h
    obtain ⟨hdb2, hu2⟩ := h
    subst hdb2
    subst hu2
    have hu_id : u.id = i := by
      have := List.find?_some hf
      simpa using this
    have hpred : ((fun (u : User) => u.id == i) ∘ fun v =>
        if v.id == i then f v else v) = fun (u : User) => u.id == i := by
      funext v
      by_cases hvi : (v.id == i) = true
      · have hv : v.id = i := by simpa using hvi
        simp [hv, hid]
      · have hv : ¬ v.id = i := by simpa using hvi
        simp [hv]
    have hfind2 : (db.map (fun v => if v.id == i then f v else v)).find?
        (fun u => u.id == i) = some (f u) := by
      rw [List.find?_map, hpred, hf]
      simp [hu_id]
    rw [hfind2]
    have hmm : (db.map (fun v => if v.id == i then f v else v)).map
        (fun v => if v.id == i then f v else v) =
        db.map (fun v => if v.id == i then f v else v) := by
      rw [List.map_map]
      congr 1
      funext v
      by_cases hvi : (v.id == i) = true
      · have hv : v.id = i := by simpa using hvi
        simp [hv, hid, hff]
      · have hv : ¬ v.id = i := by simpa using hvi
        simp [hv]
    simp only [hmm, hff]

/-- C9: `logout` always returns the success message (also when no row
has the id, via the catch on Prisma P2025); every row with the target
id ends with both refresh columns null; and logging out twice returns
the same message and store as logging out once. -/
theorem logout_succeeds_clears_idempotent (db : List User) (userId : String) :
    (logout db userId).1 = "Logout successful" ∧
    (∀ w ∈ (logout db userId).2, w.id = userId →
      w.refreshToken = none ∧ w.refreshTokenExpires = none) ∧
    logout (logout db userId).2 userId = logout db userId := by
  cases hupd : updateById db userId (fun u =>
      { u with refreshToken := none, refreshTokenExpires := none }) with
  | none =>
    have h2 : logout db userId = ("Logout successful", db) := by
      unfold logout
      rw [hupd]
    refine ⟨by rw [h2], ?_, ?_⟩
    · intro w hw hid
      rw [h2] at hw
      unfold updateById at hupd
      cases hf : db.find? (fun u => u.id == userId) with
      | some u =>
        rw [hf] at hupd
        exact absurd hupd (by simp)
      | none =>
        rw [List.find?_eq_none] at hf
        exact absurd (by simp [hid]) (hf w hw)
    · rw [h2]
      exact h2
  | some res =>
    obtain ⟨db2, u2⟩ := res
    have h2 : logout db userId = ("Logout successful", db2) := by
      unfold logout
      rw [hupd]
    have hupd2 := updateById_map_self db userId
      (fun u => { u with refreshToken := none, refreshTokenExpires := none })
      (fun u => rfl) (fun u => rfl) db2 u2 hupd
    refine ⟨by rw [h2], ?_, ?_⟩
    · intro w hw hid
      rw [h2] at hw
      unfold updateById at hupd
      cases hf : db.find? (fun u => u.id == userId) with
      | none =>
        rw [hf] at hupd
        exact absurd hupd (by simp)
      | some u =>
        rw [hf] at hupd
        simp only [Option.some.injEq, Prod.mk.injEq] at hupd
        obtain ⟨hdb2, _⟩ := hupd
        rw [← hdb2] at hw
        rcases List.mem_map.mp hw with ⟨v, hv, rfl⟩
        by_cases hvi : (v.id == userId) = true
        · simp [hvi]
        · simp only [hvi, if_false] at hid ⊢
          exact absurd hid (by simpa using hvi)
    · rw [h2]
      show logout db2 userId = _
      unfold logout
      rw [hupd2]

/-- Witness for C9 at a concrete store holding a live refresh token. -/
theorem logout_succeeds_clears_idempotent_witness :
    (logout [demoUser] "u1").1 = "Logout successful" :=
  (logout_succeeds_clears_idempotent [demoUser] "u1").1

/-- C1 counterexample: the interleaving read1, read2, write1, write2
of two requests presenting the same activation token.  Consumption is
a store read (`activateReadPhase`) followed by a separate write keyed
only by the account id (`activateWritePhase`), so both reads see the
token on the same snapshot, both pass the expiry check, and both
writes then succeed — two successes, refuting at-most-one-success. -/
theorem activateUser_race_two_successes :
    activateReadPhase [raceUser] "tok9" 0 = Except.ok raceUser ∧
    activateWritePhase [raceUser] raceUser.id =
      some ([raceUserActivated], raceUserActivated) ∧
    activateWritePhase [raceUserActivated] raceUser.id =
      some ([raceUserActivated], raceUserActivated) := by
  exact ⟨rfl, rfl, rfl⟩

/-- Sequential single-use for the activation class: after a successful
consumption, a second `activateUser` with the same token (unique
across rows) is rejected as invalid. -/
theorem activateUser_consume_once
    (db : List User) (t : String) (now : Nat)
    (v : List (String × FieldVal)) (db2 : List User)
    (huniq : ∀ u ∈ db, ∀ w ∈ db, u.activationToken = some t →
      w.activationToken = some t → u.id = w.id)
    (h : activateUser db t now = (Except.ok v, db2)) :
    activateUser db2 t now =
      (Except.error ⟨ExKind.unauthorized, "Invalid activation token."⟩,
       db2) := by
  unfold activateUser at h
  split at h
  next e hr =>
    simp at h
  next u hr =>
    split at h
    next dbw uw hwv =>
      simp only [Prod.mk.injEq, Except.ok.injEq] at h
      obtain ⟨_, hdb2⟩ := h
      subst hdb2
      have ht : t ≠ "" := by
        intro habs
        unfold activateReadPhase findByActivationToken at hr
        simp [habs] at hr
      have hfind : db.find? (fun w => w.activationToken == some t) = some u := by
        unfold activateReadPhase findByActivationToken at hr
        simp only [ht, if_false] at hr
        cases hf : db.find? (fun w => w.activationToken == some t) with
        | none =>
          rw [hf] at hr
          simp at hr
        | some w =>
          rw [hf] at hr
          cases hexp : w.activationTokenExpires with
          | none => simp [hexp] at hr
          | some e =>
            simp only [hexp] at hr
            by_cases hlt : e < now
            · simp [hlt] at hr
            · simp only [hlt, if_false] at hr
              cases hr
              rfl
      have hmem : u ∈ db := List.mem_of_find?_eq_some hfind
      have htok : u.activationToken = some t := by
        have := List.find?_some hfind
        simpa using this
      unfold activateWritePhase updateById at hwv
      cases hfid : db.find? (fun w => w.id == u.id) with
      | none =>
        rw [hfid] at hwv
        exact absurd hwv (by simp)
      | some w0 =>
        rw [hfid] at hwv
        simp only [Option.some.injEq, Prod.mk.injEq] at hwv
        obtain ⟨hdbw, _⟩ := hwv
        have hnone : dbw.find? (fun w => w.activationToken == some t) = none := by
          rw [List.find?_eq_none]
          intro w hw
          rw [← hdbw] at hw
          rcases List.mem_map.mp hw with ⟨x, hx, rfl⟩
          by_cases hxi : (x.id == u.id) = true
          · simp [hxi]
          · simp only [hxi, if_false]
            intro habs
            have hxt : x.activationToken = some t := by simpa using habs
            have : u.id = x.id := huniq u hmem x hx htok hxt
            exact absurd (by simpa using this.symm) hxi
        have hread2 : activateReadPhase dbw t now =
            Except.error ⟨ExKind.unauthorized, "Invalid activation token."⟩ := by
          unfold activateReadPhase findByActivationToken
          simp [ht, hnone]
        unfold activateUser
        rw [hread2]
    next hwv =>
      simp at h

/-- Sequential single-use for the reset class: after a successful
`updatePassword`, a second call with the same token (unique across
rows) fails NotFound Invalid reset token, for any hash function, new
password and instant. -/
theorem updatePassword_consume_once
    (db : List User) (hF : String → String) (t p : String) (now : Nat)
    (v : List (String × FieldVal)) (db2 : List User)
    (huniq : ∀ u ∈ db, ∀ w ∈ db, u.resetToken = some t →
      w.resetToken = some t → u.id = w.id)
    (h : updatePassword db hF t p now = (Except.ok v, db2)) :
    ∀ (hF2 : String → String) (p2 : String) (now2 : Nat),
      updatePassword db2 hF2 t p2 now2 =
        (Except.error ⟨ExKind.notFound, "Invalid reset token."⟩, db2) := by
  intro hF2 p2 now2
  unfold updatePassword at h
  split at h
  next e hr =>
    simp at h
  next u hr =>
    dsimp only at h
    split at h
    next dbw uw hupd =>
      simp only [Prod.mk.injEq, Except.ok.injEq] at h
      obtain ⟨_, hdb2⟩ := h
      subst hdb2
      have ht : t ≠ "" := by
        intro habs
        unfold findByResetToken at hr
        simp [habs] at hr
      have hfind := findByResetToken_ok_find db t now u hr
      have hmem : u ∈ db := List.mem_of_find?_eq_some hfind
      have htok : u.resetToken = some t := by
        have := List.find?_some hfind
        simpa using this
      unfold updateById at hupd
      cases hfid : db.find? (fun w => w.id == u.id) with
      | none =>
        rw [hfid] at hupd
        exact absurd hupd (by simp)
      | some w0 =>
        rw [hfid] at hupd
        simp only [Option.some.injEq, Prod.mk.injEq] at hupd
        obtain ⟨hdbw, _⟩ := hupd
        have hnone : dbw.find? (fun w => w.resetToken == some t) = none := by
          rw [List.find?_eq_none]
          intro w hw
          rw [← hdbw] at hw
          rcases List.mem_map.mp hw with ⟨x, hx, rfl⟩
          by_cases hxi : (x.id == u.id) = true
          · simp [hxi]
          · simp only [hxi, if_false]
            intro habs
            have hxt : x.resetToken = some t := by simpa using habs
            have : u.id = x.id := huniq u hmem x hx htok hxt
            exact absurd (by simpa using this.symm) hxi
        have hfr2 : findByResetToken dbw t now2 =
            Except.error ⟨ExKind.notFound, "Invalid reset token."⟩ := by
          unfold findByResetToken
          simp [ht, hnone]
        unfold updatePassword
        rw [hfr2]
    next hupd =>
      simp at h

/-- Sequential single-use for the refresh class: after a successful
rotation whose newly issued token differs from the presented one,
presenting the old token again (unique across rows) fails Unauthorized
at any instant. -/
theorem refreshToken_consume_once
    (db : List User) (vR : String → Bool) (sA sR : String → String → String)
    (t : String) (now : Nat) (resp : LoginResponse) (db2 : List User)
    (huniq : ∀ u ∈ db, ∀ w ∈ db, u.refreshToken = some t →
      w.refreshToken = some t → u.id = w.id)
    (h : refreshToken db vR sA sR t now = (Except.ok resp, db2))
    (hne : resp.refresh_token ≠ t) :
    ∀ now2, refreshToken db2 vR sA sR t now2 =
      (Except.error
        ⟨ExKind.unauthorized, "Invalid or expired refresh token"⟩, db2) := by
  intro now2
  unfold refreshToken at h
  split at h
  next hfind =>
    simp at h
  next dbUser hfind =>
    have hmem : dbUser ∈ db := List.mem_of_find?_eq_some hfind
    have htok : dbUser.refreshToken = some t := by
      have := List.find?_some hfind
      simp only [Bool.and_eq_true, beq_iff_eq] at this
      exact this.1
    split at h
    · dsimp only at h
      split at h
      next dbw uw hupd =>
        simp only [Prod.mk.injEq, Except.ok.injEq] at h
        obtain ⟨hresp, hdb2⟩ := h
        subst hdb2
        have hner : sR dbUser.id dbUser.email ≠ t := by
          intro habs
          apply hne
          rw [← hresp]
          exact habs
        unfold updateById at hupd
        cases hfid : db.find? (fun w => w.id == dbUser.id) with
        | none =>
          rw [hfid] at hupd
          exact absurd hupd (by simp)
        | some w0 =>
          rw [hfid] at hupd
          simp only [Option.some.injEq, Prod.mk.injEq] at hupd
          obtain ⟨hdbw, _⟩ := hupd
          have hnone : dbw.find? (fun w =>
              w.refreshToken == some t &&
                gtNow w.refreshTokenExpires now2) = none := by
            rw [List.find?_eq_none]
            intro w hw
            rw [← hdbw] at hw
            rcases List.mem_map.mp hw with ⟨x, hx, rfl⟩
            by_cases hxi : (x.id == dbUser.id) = true
            · simp [hxi, hner]
            · simp only [hxi, if_false, Bool.and_eq_true, beq_iff_eq, not_and]
              intro habs
              have : dbUser.id = x.id := huniq dbUser hmem x hx htok habs
              exact absurd (by simpa using this.symm) hxi
          unfold refreshToken
          rw [hnone]
      next hupd =>
        simp at h
    · split at h <;> simp at h

/-- C1 amended: consumption of each single-use token class is a read
(lookup by token, with the expiry check made on the fetched snapshot)
followed by a separate update keyed only by the account id — not the
single conditional update the claim asserts, as the interleaved
schedule of `activateUser_race_two_successes` shows.  Executed
sequentially, with tokens unique across rows (and, for refresh, the
newly issued token differing from the presented one), a second
consumption of the same token fails as if the token never existed:
Unauthorized Invalid activation token for activation, NotFound Invalid
reset token for reset, and Unauthorized Invalid or expired refresh
token for refresh. -/
theorem single_use_consume_sequential :
    (∀ (db : List User) (t : String) (now : Nat)
        (v : List (String × FieldVal)) (db2 : List User),
      (∀ u ∈ db, ∀ w ∈ db, u.activationToken = some t →
        w.activationToken = some t → u.id = w.id) →
      activateUser db t now = (Except.ok v, db2) →
      activateUser db2 t now =
        (Except.error ⟨ExKind.unauthorized, "Invalid activation token."⟩,
         db2)) ∧
    (∀ (db : List User) (hF : String → String) (t p : String) (now : Nat)
        (v : List (String × FieldVal)) (db2 : List User),
      (∀ u ∈ db, ∀ w ∈ db, u.resetToken = some t →
        w.resetToken = some t → u.id = w.id) →
      updatePassword db hF t p now = (Except.ok v, db2) →
      ∀ (hF2 : String → String) (p2 : String) (now2 : Nat),
        updatePassword db2 hF2 t p2 now2 =
          (Except.error ⟨ExKind.notFound, "Invalid reset token."⟩, db2)) ∧
    (∀ (db : List User) (vR : String → Bool)
        (sA sR : String → String → String) (t : String) (now : Nat)
        (resp : LoginResponse) (db2 : List User),
      (∀ u ∈ db, ∀ w ∈ db, u.refreshToken = some t →
        w.refreshToken = some t → u.id = w.id) →
      refreshToken db vR sA sR t now = (Except.ok resp, db2) →
      resp.refresh_token ≠ t →
      ∀ now2, refreshToken db2 vR sA sR t now2 =
        (Except.error
          ⟨ExKind.unauthorized, "Invalid or expired refresh token"⟩, db2)) :=
  ⟨fun db t now v db2 huniq h =>
      activateUser_consume_once db t now v db2 huniq h,
   fun db hF t p now v db2 huniq h =>
      updatePassword_consume_once db hF t p now v db2 huniq h,
   fun db vR sA sR t now resp db2 huniq h hne =>
      refreshToken_consume_once db vR sA sR t now resp db2 huniq h hne⟩

/-- Witness for the amended C1 theorem: a second sequential
consumption of the demo activation, reset and refresh tokens is
rejected with the respective error of each class. -/
theorem single_use_consume_sequential_witness :
    activateUser [raceUserActivated] "tok9" 0 =
      (Except.error ⟨ExKind.unauthorized, "Invalid activation token."⟩,
       [raceUserActivated]) ∧
    updatePassword [demoUserPwReset] (fun s => String.append s "+h")
        "rst1" "Np3" 5 =
      (Except.error ⟨ExKind.notFound, "Invalid reset token."⟩,
       [demoUserPwReset]) ∧
    refreshToken [demoUserRotated] (fun _ => true) (fun a _ => a)
        (fun _ b => b) "rfh1" 7 =
      (Except.error
        ⟨ExKind.unauthorized, "Invalid or expired refresh token"⟩,
       [demoUserRotated]) :=
  ⟨single_use_consume_sequential.1 [raceUser] "tok9" 0
      (omitPassword raceUserActivated) [raceUserActivated]
      (by decide) (by rfl),
   single_use_consume_sequential.2.1 [demoUser]
      (fun s => String.append s "+h") "rst1" "Np2" 0
      (omitPassword demoUserPwReset) [demoUserPwReset]
      (by decide) (by rfl)
      (fun s => String.append s "+h") "Np3" 5,
   single_use_consume_sequential.2.2 [demoUser] (fun _ => true)
      (fun a _ => a) (fun _ b => b) "rfh1" 0
      ⟨"u1", "ana@example.com"⟩ [demoUserRotated]
      (by decide) (by rfl) (by decide) 7⟩

/-- `updateById` preserves any row property that the mutation itself
preserves. -/
theorem updateById_preserves (P : User → Prop) (db db2 : List User)
    (i : String) (f : User → User) (u2 : User)
    (hdb : ∀ u ∈ db, P u) (hfp : ∀ u, P u → P (f u))
    (h : updateById db i f = some (db2, u2)) :
    ∀ w ∈ db2, P w := by
  unfold updateById at h
  cases hf : db.find? (fun u => u.id == i) with
  | none =>
    rw [hf] at h
    exact absurd h (by simp)
  | some u =>
    rw [hf] at h
    simp only [Option.some.injEq, Prod.mk.injEq] at h
    obtain ⟨hdb2, _⟩ := h
    subst hdb2
    intro w hw
    rcases List.mem_map.mp hw with ⟨x, hx, rfl⟩
    by_cases hxi : (x.id == i) = true
    · simpa [hxi] using hfp x (hdb x hx)
    · simpa [hxi] using hdb x hx

/-- `login` writes both refresh columns together. -/
theorem login_preserves_inv (db : List User)
    (sA sR : String → String → String) (uid em : String) (now : Nat)
    (hdb : dbInv db) : dbInv (login db sA sR uid em now).2 := by
  unfold login
  dsimp only
  split
  next db2 u2 hupd =>
    refine updateById_preserves tokenPairInv db db2 uid _ u2 hdb ?_ hupd
    intro u hu
    exact ⟨hu.1, hu.2.1, by simp⟩
  next hupd => exact hdb

/-- `logout` nulls both refresh columns together. -/
theorem logout_preserves_inv (db : List User) (uid : String)
    (hdb : dbInv db) : dbInv (logout db uid).2 := by
  unfold logout
  split
  next db2 u2 hupd =>
    refine updateById_preserves tokenPairInv db db2 uid _ u2 hdb ?_ hupd
    intro u hu
    exact ⟨hu.1, hu.2.1, by simp⟩
  next hupd => exact hdb

/-- `refreshToken` writes or nulls both refresh columns together on
both its success and its signature-failure paths. -/
theorem refreshToken_preserves_inv (db : List User)
    (vR : String → Bool) (sA sR : String → String → String)
    (t : String) (now : Nat) (hdb : dbInv db) :
    dbInv (refreshToken db vR sA sR t now).2 := by
  unfold refreshToken
  dsimp only
  split
  next hfind => exact hdb
  next dbUser hfind =>
    split
    · split
      next db2 u2 hupd =>
        refine updateById_preserves tokenPairInv db db2 dbUser.id _ u2
          hdb ?_ hupd
        intro u hu
        exact ⟨hu.1, hu.2.1, by simp⟩
      next hupd => exact hdb
    · split
      next db2 u2 hupd =>
        refine updateById_preserves tokenPairInv db db2 dbUser.id _ u2
          hdb ?_ hupd
        intro u hu
        exact ⟨hu.1, hu.2.1, by simp⟩
      next hupd => exact hdb

/-- `activateUser` nulls both activation columns together. -/
theorem activateUser_preserves_inv (db : List User) (t : String) (now : Nat)
    (hdb : dbInv db) : dbInv (activateUser db t now).2 := by
  unfold activateUser
  split
  next e hr => exact hdb
  next u hr =>
    split
    next db2 u2 hupd =>
      refine updateById_preserves tokenPairInv db db2 u.id _ u2 hdb ?_ hupd
      intro x hx
      exact ⟨by simp, hx.2.1, hx.2.2⟩
    next hupd => exact hdb

/-- `updatePassword` nulls both reset columns together. -/
theorem updatePassword_preserves_inv (db : List User)
    (hF : String → String) (t p : String) (now : Nat)
    (hdb : dbInv db) : dbInv (updatePassword db hF t p now).2 := by
  unfold updatePassword
  dsimp only
  split
  next e hr => exact hdb
  next u hr =>
    split
    next db2 u2 hupd =>
      refine updateById_preserves tokenPairInv db db2 u.id _ u2 hdb ?_ hupd
      intro x hx
      exact ⟨hx.1, by simp, hx.2.2⟩
    next hupd => exact hdb

/-- `resetPassword` writes both reset columns together. -/
theorem resetPassword_preserves_inv (db : List User) (g em : String)
    (now : Nat) (hdb : dbInv db) : dbInv (resetPassword db g em now).2 := by
  unfold resetPassword
  split
  next hfind => exact hdb
  next u hfind =>
    split
    next db2 u2 hupd =>
      refine updateById_preserves tokenPairInv db db2 u.id _ u2 hdb ?_ hupd
      intro x hx
      exact ⟨hx.1, by simp, hx.2.2⟩
    next hupd => exact hdb

/-- `create` seeds both activation columns together and leaves the
other token pairs null. -/
theorem create_preserves_inv (db : List User) (hF : String → String)
    (g nid em nm rid p : String) (now : Nat)
    (hdb : dbInv db) : dbInv (create db hF g nid em nm rid p now).2 := by
  unfold create
  split
  · exact hdb
  · intro w hw
    dsimp only at hw
    rcases List.mem_append.mp hw with hmem | hmem
    · exact hdb w hmem
    · rcases List.mem_singleton.mp hmem with rfl
      exact ⟨by simp, by simp, by simp⟩

/-- Re-issuing the activation token writes both activation columns
together. -/
theorem sendEmailActivation_preserves_inv (db : List User) (g em : String)
    (now : Nat) (hdb : dbInv db) :
    dbInv (findByEmailAndSendEmailActivation db g em now).2 := by
  unfold findByEmailAndSendEmailActivation
  split
  · exact hdb
  · split
    next hfind => exact hdb
    next u hfind =>
      split
      next db2 u2 hupd =>
        refine updateById_preserves tokenPairInv db db2 u.id _ u2 hdb ?_ hupd
        intro x hx
        exact ⟨by simp, hx.2.1, hx.2.2⟩
      next hupd => exact hdb

/-- C10: every core operation that writes token state preserves, row
by row, the invariant that each token column is null exactly when its
paired expiry column is null: login, logout, refresh (both paths),
activation consume, reset consume, reset issue, account creation, and
activation re-issue. -/
theorem token_state_writers_preserve_pairing :
    (∀ (db : List User) (sA sR : String → String → String) (uid em : String)
        (now : Nat), dbInv db → dbInv (login db sA sR uid em now).2) ∧
    (∀ (db : List User) (uid : String), dbInv db → dbInv (logout db uid).2) ∧
    (∀ (db : List User) (vR : String → Bool)
        (sA sR : String → String → String) (t : String) (now : Nat),
      dbInv db → dbInv (refreshToken db vR sA sR t now).2) ∧
    (∀ (db : List User) (t : String) (now : Nat),
      dbInv db → dbInv (activateUser db t now).2) ∧
    (∀ (db : List User) (hF : String → String) (t p : String) (now : Nat),
      dbInv db → dbInv (updatePassword db hF t p now).2) ∧
    (∀ (db : List User) (g em : String) (now : Nat),
      dbInv db → dbInv (resetPassword db g em now).2) ∧
    (∀ (db : List User) (hF : String → String) (g nid em nm rid p : String)
        (now : Nat), dbInv db → dbInv (create db hF g nid em nm rid p now).2) ∧
    (∀ (db : List User) (g em : String) (now : Nat),
      dbInv db → dbInv (findByEmailAndSendEmailActivation db g em now).2) :=
  ⟨fun db sA sR uid em now hdb => login_preserves_inv db sA sR uid em now hdb,
   fun db uid hdb => logout_preserves_inv db uid hdb,
   fun db vR sA sR t now hdb => refreshToken_preserves_inv db vR sA sR t now hdb,
   fun db t now hdb => activateUser_preserves_inv db t now hdb,
   fun db hF t p now hdb => updatePassword_preserves_inv db hF t p now hdb,
   fun db g em now hdb => resetPassword_preserves_inv db g em now hdb,
   fun db hF g nid em nm rid p now hdb =>
     create_preserves_inv db hF g nid em nm rid p now hdb,
   fun db g em now hdb => sendEmailActivation_preserves_inv db g em now hdb⟩

/-- Witness for C10: the pairing invariant holds on the row produced
by logging the demo account out of its live refresh session. -/
theorem token_state_writers_preserve_pairing_witness :
    tokenPairInv { demoUser with refreshToken := none,
                                 refreshTokenExpires := none } :=
  token_state_writers_preserve_pairing.2.1 [demoUser] "u1"
    (by
      intro u hu
      simp only [List.mem_singleton] at hu
      subst hu
      unfold tokenPairInv
      simp [demoUser])
    _ (by decide)

end TecnetAuth
